import Mathlib

/-!
Verification development for the offline video-editor screen (`src/app/app.tsx`).

The screen's logical core is embedded shallowly:
* the four FFmpeg command builders (`buildSplitCommand`, `buildCropSquareCommand`,
  `buildBlurCommand`, `buildEnhanceCommand`) as pure `String` functions;
* the path manager (`outDir`, the per-preset output paths, `ensureOutDir`) over an
  explicit file-system state;
* the UI controller (`withRun`, the four `do…` handlers, the run buttons) as a
  state-passing function emitting an event trace (directory calls, builder calls,
  adapter calls, alerts).

JavaScript string primitives used by the code (`String.prototype.replace` with a
string pattern, which replaces only the first occurrence, and `slice(0, n)`) are
modelled character-exactly by `replaceFirst` and `jsSlice`.
-/

namespace VideoApp

/-- The single-quote character, used inside FFmpeg filter expressions. -/
def sq : String := String.singleton (Char.ofNat 39)

/-- The double-quote character the builders wrap the input/output paths in. -/
def dq : Char := Char.ofNat 34

/-- `leadMatch p l` is true iff `p` is a leading segment of `l` (JS `startsWith`). -/
def leadMatch : List Char → List Char → Bool
  | [], _ => true
  | _ :: _, [] => false
  | a :: as, b :: bs => a == b && leadMatch as bs

/-- First-occurrence search (JS `indexOf`): splits `l` as `pre ++ pat ++ post` at the
first occurrence of `pat`, or returns `none` when `pat` does not occur. -/
def strSplitFirst (pat : List Char) : List Char → Option (List Char × List Char)
  | [] => if leadMatch pat [] then some ([], []) else none
  | c :: rest =>
    if leadMatch pat (c :: rest) then some ([], (c :: rest).drop pat.length)
    else
      match strSplitFirst pat rest with
      | none => none
      | some (pre, post) => some (c :: pre, post)

/-- JS `s.includes(sub)`: substring containment. -/
def containsStr (s sub : String) : Bool :=
  (strSplitFirst sub.data s.data).isSome

/-- JS `s.replace(pat, rep)` with a string pattern: replaces only the FIRST
occurrence of `pat`, and returns `s` unchanged when `pat` does not occur. -/
def replaceFirst (s pat rep : String) : String :=
  match strSplitFirst pat.data s.data with
  | none => s
  | some (pre, post) => ⟨pre ++ rep.data ++ post⟩

/-- JS `s.slice(0, n)`: the first `n` characters of `s`. -/
def jsSlice (s : String) (n : Nat) : String := ⟨s.data.take n⟩

/-- The last whitespace-separated token of a command string. -/
def lastToken (s : String) : String :=
  ⟨(s.data.reverse.takeWhile (fun c => !(c == ' '))).reverse⟩

/-- JS `s.endsWith(suf)`. -/
def endsWithStr (s suf : String) : Bool :=
  leadMatch suf.data.reverse s.data.reverse

/-- Number of double-quote characters occurring in `s`. -/
def countQuotes (s : String) : Nat := s.data.count dq

/-- The (first) value following `marker` in a command string, up to the next space:
used to read off the `-preset`/`-crf` values of a built command. -/
def tokenAfter (s marker : String) : Option String :=
  match strSplitFirst marker.data s.data with
  | none => none
  | some (_, post) => some ⟨post.takeWhile (fun c => !(c == ' '))⟩

/-- The value of the `-crf` quality flag of a command string. -/
def crfOf (s : String) : Option String := tokenAfter s " -crf "

/-- The value of the `-preset` encoding-preset flag of a command string. -/
def presetOf (s : String) : Option String := tokenAfter s " -preset "

/-! ### The command builders (`app.tsx` lines 37–57) -/

/-- `buildSplitCommand` from `app.tsx`. -/
def buildSplitCommand (inputUri : String) (outPattern : String) : String :=
  "-i \"" ++ inputUri ++
    "\" -map 0 -c:v libx264 -preset veryfast -crf 23 -c:a aac -segment_time 60 -f segment -reset_timestamps 1 \"" ++
    outPattern ++ "\""

/-- The `vf` filter string of `buildCropSquareCommand`:
`crop='min(iw,ih)':'min(iw,ih)',scale=1080:1080`. -/
def cropVf : String :=
  "crop=" ++ sq ++ "min(iw,ih)" ++ sq ++ ":" ++ sq ++ "min(iw,ih)" ++ sq ++
    ",scale=1080:1080"

/-- `buildCropSquareCommand` from `app.tsx`. -/
def buildCropSquareCommand (inputUri : String) (outputPath : String) : String :=
  "-i \"" ++ inputUri ++ "\" -vf " ++ cropVf ++
    " -c:v libx264 -preset veryfast -crf 20 -c:a copy \"" ++ outputPath ++ "\""

/-- The `vf` filter string of `buildBlurCommand`. -/
def blurVf : String := "boxblur=10:1"

/-- `buildBlurCommand` from `app.tsx`. -/
def buildBlurCommand (inputUri : String) (outputPath : String) : String :=
  "-i \"" ++ inputUri ++ "\" -vf " ++ blurVf ++
    " -c:v libx264 -preset veryfast -crf 22 -c:a copy \"" ++ outputPath ++ "\""

/-- The `vf` filter string of `buildEnhanceCommand`. -/
def enhanceVf : String :=
  "unsharp=5:5:1.0:5:5:0.0,eq=contrast=1.08:brightness=0.02:saturation=1.15"

/-- `buildEnhanceCommand` from `app.tsx`. -/
def buildEnhanceCommand (inputUri : String) (outputPath : String) : String :=
  "-i \"" ++ inputUri ++ "\" -vf " ++ enhanceVf ++
    " -c:v libx264 -preset veryfast -crf 20 -c:a copy \"" ++ outputPath ++ "\""

/-! ### Path manager (`app.tsx` lines 9–17, 97–137)

`RNFS.DocumentDirectoryPath` is a value of the external file-system collaborator;
it is abstracted as the parameter `docDir`. The timestamp produced by `nowStamp()`
is abstracted as the parameter `stamp`. -/

/-- `outDir = RNFS.DocumentDirectoryPath + "/outputs"` from `app.tsx`. -/
def outDir (docDir : String) : String := docDir ++ "/outputs"

/-- The Split output pattern `${outDir}/split_${nowStamp()}_%03d.mp4` from `doSplit`. -/
def splitPattern (docDir stamp : String) : String :=
  outDir docDir ++ "/split_" ++ stamp ++ "_%03d.mp4"

/-- The four presets of the app (the enumeration of §3 of the spec). -/
inductive Preset
  | split
  | crop
  | blur
  | enhance
deriving DecidableEq, Repr

/-- The busy label each handler passes to `withRun`. -/
def presetLabel : Preset → String
  | .split => "Split (1-minute)"
  | .crop => "Crop (Square)"
  | .blur => "Blur"
  | .enhance => "Enhance"

/-- The output path (pattern, for Split) each handler computes. -/
def presetOutPath (p : Preset) (docDir stamp : String) : String :=
  match p with
  | .split => splitPattern docDir stamp
  | .crop => outDir docDir ++ "/crop_" ++ stamp ++ ".mp4"
  | .blur => outDir docDir ++ "/blur_" ++ stamp ++ ".mp4"
  | .enhance => outDir docDir ++ "/enhance_" ++ stamp ++ ".mp4"

/-- The Output Record each handler prepends to the `outputs` list. For Split the
recorded string is `pattern.replace("%03d", "001..")`; for the other presets it is
the output path itself. -/
def presetRecord (p : Preset) (docDir stamp : String) : String :=
  match p with
  | .split => replaceFirst (splitPattern docDir stamp) "%03d" "001.."
  | _ => presetOutPath p docDir stamp

/-- The command each handler builds for its preset. -/
def presetCmd (p : Preset) (u out : String) : String :=
  match p with
  | .split => buildSplitCommand u out
  | .crop => buildCropSquareCommand u out
  | .blur => buildBlurCommand u out
  | .enhance => buildEnhanceCommand u out

/-! ### File-system state and `ensureOutDir` (`app.tsx` lines 13–17) -/

/-- Modelled from the spec: the file-system collaborator (`RNFS` in the code, which
is external to this repository) is, per §6, "existence check, directory creation
(idempotent), and a known writable base directory". The state is the set of
existing directories, as a duplicate-free list. -/
structure FS where
  dirs : List String
deriving DecidableEq, Repr

/-- Modelled from the spec: `RNFS.exists` — the existence check of the
file-system collaborator. -/
def fsExists (fs : FS) (p : String) : Bool := p ∈ fs.dirs

/-- Modelled from the spec: `RNFS.mkdir` — idempotent directory creation of the
file-system collaborator (§6). -/
def fsMkdir (fs : FS) (p : String) : FS :=
  if p ∈ fs.dirs then fs else ⟨p :: fs.dirs⟩

/-- `ensureOutDir` from `app.tsx`: checks existence of the fixed output directory
and creates it only when absent. Returns the new file-system state, the returned
directory path, and whether `mkdir` was invoked. -/
def ensureOutDir (fs : FS) (docDir : String) : FS × String × Bool :=
  let od := outDir docDir
  if fsExists fs od then (fs, od, false) else (fsMkdir fs od, od, true)

/-! ### The UI controller (`app.tsx` lines 60–175)

The component state (`inputUri`, `busy`, `outputs`) is passed explicitly; the
side effects of a run (the `ensureOutDir` call, the builder call, the adapter
call `runFFmpeg`, and every `Alert.alert`) are recorded in an event trace. -/

/-- The React component state of `App`. -/
structure AppState where
  inputUri : Option String
  busy : Option String
  outputs : List String
deriving DecidableEq, Repr

/-- Observable effects of the controller. -/
inductive Event
  | ensureDirCall
  | buildCall
  | adapterCall (cmd : String)
  | alert (title msg : String)
deriving DecidableEq, Repr

/-- Number of Execution Adapter invocations in a trace. -/
def countAdapterCalls (es : List Event) : Nat :=
  (es.filter fun e => match e with | .adapterCall _ => true | _ => false).length

/-- Number of Command Builder invocations in a trace. -/
def countBuildCalls (es : List Event) : Nat :=
  (es.filter fun e => match e with | .buildCall => true | _ => false).length

/-- Number of Path Manager (`ensureOutDir`) invocations in a trace. -/
def countEnsureCalls (es : List Event) : Nat :=
  (es.filter fun e => match e with | .ensureDirCall => true | _ => false).length

/-- `withRun` from `app.tsx`. `buildCmd` is the handler closure: it reads the
state (to append the output record) and either returns the command string with
the updated state, or throws (`Except.error`), carrying its message and the
state at the throw point. `adapter` is `runFFmpeg`: it resolves to
`(ok, logs)`. The result is the final state plus the event trace. -/
def withRun (s : AppState) (label : String)
    (buildCmd : AppState → Except (String × AppState) (String × AppState))
    (adapter : String → Bool × String) : AppState × List Event :=
  match s.inputUri with
  | none => (s, [.alert "No video" "Please pick a video first."])
  | some _ =>
    let s1 : AppState := { s with busy := some label }
    match buildCmd s1 with
    | .error (msg, sErr) =>
      ({ sErr with busy := none },
        [.ensureDirCall, .buildCall, .alert (label ++ " error") msg])
    | .ok (cmd, s2) =>
      let r := adapter cmd
      let s3 : AppState := { s2 with busy := none }
      if r.1 then
        (s3, [.ensureDirCall, .buildCall, .adapterCall cmd,
              .alert (label ++ " done") "Check the output paths below."])
      else
        (s3, [.ensureDirCall, .buildCall, .adapterCall cmd,
              .alert (label ++ " failed") (jsSlice r.2 2000)])

/-- The handler closure of `doSplit`/`doCrop`/`doBlur`/`doEnhance`: computes the
output path, prepends the output record to `outputs`, and returns the built
command. `u` is the non-null `inputUri!` the closure reads. -/
def presetBuild (p : Preset) (docDir stamp u : String) (s : AppState) :
    String × AppState :=
  (presetCmd p u (presetOutPath p docDir stamp),
    { s with outputs := presetRecord p docDir stamp :: s.outputs })

/-- A run of one preset: `withRun(presetLabel p, buildCmd)` as wired in the four
handlers. The closure never throws; it reads `inputUri` from the state it is
handed (the code's captured `inputUri!`). -/
def runPreset (p : Preset) (docDir stamp : String) (s : AppState)
    (adapter : String → Bool × String) : AppState × List Event :=
  withRun s (presetLabel p)
    (fun s1 =>
      match s1.inputUri with
      | none => .error ("inputUri is null", s1)
      | some u => .ok (presetBuild p docDir stamp u s1))
    adapter

/-- `onPick` success path: the picked URI replaces the input reference. -/
def onPick (s : AppState) (uri : String) : AppState := { s with inputUri := some uri }

/-- The `disabled` expression of the four run buttons: `!inputUri || !!busy`. -/
def runDisabled (s : AppState) : Bool := s.inputUri.isNone || s.busy.isSome

/-- A press of a run button. Modelled from the spec: the host UI framework's
`TouchableOpacity` (external to this repository) does not fire `onPress` while
`disabled` — the spec's "implicit rejection via disabled affordance". When
enabled, the press runs the preset's handler. -/
def pressRun (p : Preset) (docDir stamp : String) (s : AppState)
    (adapter : String → Bool × String) : AppState × List Event :=
  if runDisabled s then (s, []) else runPreset p docDir stamp s adapter

/-! ### Helper adapters and closures used to instantiate the controller -/

/-- An adapter resolving with success and empty logs. -/
def okAdapter : String → Bool × String := fun _ => (true, "")

/-- An adapter resolving with `success = false` and log text `logs`. -/
def failAdapter (logs : String) : String → Bool × String := fun _ => (false, logs)

/-- A handler closure that throws: `g` gives the message and state at the throw. -/
def throwingBuild (g : AppState → String × AppState) :
    AppState → Except (String × AppState) (String × AppState) :=
  fun s1 => .error (g s1)

/-- A concrete throwing handler for instantiations. -/
def throwBoom : AppState → String × AppState := fun s1 => ("boom", s1)

/-- A handler closure returning a fixed command and leaving the state unchanged. -/
def constBuild (cmd : String) :
    AppState → Except (String × AppState) (String × AppState) :=
  fun s1 => .ok (cmd, s1)

/-! ### General lemmas about the string primitives -/

theorem leadMatch_iff (p l : List Char) : leadMatch p l = true ↔ ∃ t, l = p ++ t := by
  induction p generalizing l with
  | nil => simp [leadMatch]
  | cons a as ih =>
    cases l with
    | nil =>
      simp [leadMatch]
    | cons b bs =>
      simp only [leadMatch, Bool.and_eq_true, beq_iff_eq, ih, List.cons_append]
      constructor
      · rintro ⟨rfl, t, rfl⟩
        exact ⟨t, rfl⟩
      · rintro ⟨t, h⟩
        injection h with h1 h2
        exact ⟨h1.symm, t, h2⟩

theorem leadMatch_take (l : List Char) (n : Nat) : leadMatch (l.take n) l = true := by
  induction l generalizing n with
  | nil => simp [leadMatch]
  | cons c cs ih =>
    cases n with
    | zero => simp [leadMatch]
    | succ m => simp [leadMatch, ih]

theorem strSplitFirst_decomp (pat : List Char) :
    ∀ (l pre post : List Char), strSplitFirst pat l = some (pre, post) →
      l = pre ++ pat ++ post := by
  intro l
  induction l with
  | nil =>
    intro pre post h
    unfold strSplitFirst at h
    by_cases hm : leadMatch pat [] = true
    · obtain ⟨t, ht⟩ := (leadMatch_iff _ _).mp hm
      have hpat : pat = [] := by
        cases pat with
        | nil => rfl
        | cons x xs => simp at ht
      rw [if_pos hm] at h
      injection h with h'
      injection h' with h1 h2
      subst h1; subst h2
      simp [hpat]
    · rw [if_neg hm] at h
      cases h
  | cons c rest ih =>
    intro pre post h
    unfold strSplitFirst at h
    by_cases hm : leadMatch pat (c :: rest) = true
    · rw [if_pos hm] at h
      obtain ⟨t, ht⟩ := (leadMatch_iff _ _).mp hm
      injection h with h'
      injection h' with h1 h2
      subst h1
      subst h2
      rw [ht, List.drop_left]
      simp
    · rw [if_neg hm] at h
      cases hr : strSplitFirst pat rest with
      | none => rw [hr] at h; cases h
      | some pr =>
        obtain ⟨pre', post'⟩ := pr
        rw [hr] at h
        injection h with h'
        injection h' with h1 h2
        subst h1
        subst h2
        have := ih pre' post' hr
        simp [this]

theorem strSplitFirst_isSome (pat pre post : List Char) :
    (strSplitFirst pat (pre ++ pat ++ post)).isSome = true := by
  induction pre with
  | nil =>
    simp only [List.nil_append]
    cases hl : pat ++ post with
    | nil =>
      have hpat : pat = [] := by
        cases pat with
        | nil => rfl
        | cons x xs => simp at hl
      subst hpat
      simp [strSplitFirst, leadMatch]
    | cons c rest =>
      have hm : leadMatch pat (c :: rest) = true :=
        (leadMatch_iff _ _).mpr ⟨post, hl.symm⟩
      unfold strSplitFirst
      rw [if_pos hm]
      rfl
  | cons c pre ih =>
    by_cases hm : leadMatch pat (c :: (pre ++ pat ++ post)) = true
    · simp only [List.cons_append]
      unfold strSplitFirst
      rw [if_pos hm]
      rfl
    · simp only [List.cons_append]
      unfold strSplitFirst
      rw [if_neg hm]
      obtain ⟨pr, hpr⟩ := Option.isSome_iff_exists.mp ih
      obtain ⟨pre', post'⟩ := pr
      simp only [List.append_assoc] at hpr ⊢
      rw [hpr]
      rfl

theorem containsStr_iff (s sub : String) :
    containsStr s sub = true ↔ ∃ pre post, s.data = pre ++ sub.data ++ post := by
  constructor
  · intro h
    obtain ⟨⟨pre, post⟩, hx⟩ := Option.isSome_iff_exists.mp h
    exact ⟨pre, post, strSplitFirst_decomp _ _ _ _ hx⟩
  · rintro ⟨pre, post, h⟩
    unfold containsStr
    rw [h]
    exact strSplitFirst_isSome _ _ _

theorem replaceFirst_ne (s pat rep : String) (hc : containsStr s pat = true)
    (hlen : pat.data.length ≠ rep.data.length) : replaceFirst s pat rep ≠ s := by
  unfold containsStr at hc
  obtain ⟨⟨pre, post⟩, hsome⟩ := Option.isSome_iff_exists.mp hc
  have hdec : s.data = pre ++ pat.data ++ post := strSplitFirst_decomp _ _ _ _ hsome
  unfold replaceFirst
  rw [hsome]
  intro heq
  have hd : pre ++ rep.data ++ post = s.data := congrArg String.data heq
  rw [hdec] at hd
  have hlens := congrArg List.length hd
  simp only [List.length_append] at hlens
  omega

theorem strAppend_assoc (a b c : String) : a ++ b ++ c = a ++ (b ++ c) :=
  String.ext (by simp [String.data_append])

/-- Every builder output has the shape `A ++ u ++ M ++ o ++ E`: the input appears
verbatim between `A` and `M`. -/
theorem containsStr_shape_input (A M E u o : String) :
    containsStr (A ++ u ++ M ++ o ++ E) u = true :=
  (containsStr_iff _ _).mpr
    ⟨A.data, M.data ++ o.data ++ E.data,
      by simp [String.data_append, List.append_assoc]⟩

/-- The output path appears verbatim between `M` and `E`. -/
theorem containsStr_shape_output (A M E u o : String) :
    containsStr (A ++ u ++ M ++ o ++ E) o = true :=
  (containsStr_iff _ _).mpr
    ⟨A.data ++ u.data ++ M.data, E.data,
      by simp [String.data_append, List.append_assoc]⟩

/-- A substring of the fixed middle part is a substring of the whole command. -/
theorem containsStr_shape_mid (A M E u o sub : String)
    (hM : containsStr M sub = true) :
    containsStr (A ++ u ++ M ++ o ++ E) sub = true := by
  obtain ⟨p, q, hpq⟩ := (containsStr_iff _ _).mp hM
  exact (containsStr_iff _ _).mpr
    ⟨A.data ++ u.data ++ p, q ++ o.data ++ E.data,
      by simp [String.data_append, hpq, List.append_assoc]⟩

/-- A substring of the right part is a substring of the concatenation. -/
theorem containsStr_append_right (X Y sub : String)
    (hY : containsStr Y sub = true) :
    containsStr (X ++ Y) sub = true := by
  obtain ⟨p, q, hpq⟩ := (containsStr_iff _ _).mp hY
  exact (containsStr_iff _ _).mpr
    ⟨X.data ++ p, q, by simp [String.data_append, hpq, List.append_assoc]⟩

/-- The builder introduces exactly two surrounding quote pairs: four double
quotes beyond those already present in the input and output strings. -/
theorem countQuotes_shape (A M E u o : String)
    (hA : countQuotes A = 1) (hM : countQuotes M = 2) (hE : countQuotes E = 1) :
    countQuotes (A ++ u ++ M ++ o ++ E) = countQuotes u + countQuotes o + 4 := by
  unfold countQuotes at *
  simp only [String.data_append, List.count_append]
  omega

/-! ### The fixed parts of each builder -/

/-- The fixed middle part of `buildSplitCommand`. -/
def splitMid : String :=
  "\" -map 0 -c:v libx264 -preset veryfast -crf 23 -c:a aac -segment_time 60 -f segment -reset_timestamps 1 \""

/-- The fixed middle part of `buildCropSquareCommand`. -/
def cropMid : String :=
  "\" -vf " ++ cropVf ++ " -c:v libx264 -preset veryfast -crf 20 -c:a copy \""

/-- The fixed middle part of `buildBlurCommand`. -/
def blurMid : String :=
  "\" -vf " ++ blurVf ++ " -c:v libx264 -preset veryfast -crf 22 -c:a copy \""

/-- The fixed middle part of `buildEnhanceCommand`. -/
def enhanceMid : String :=
  "\" -vf " ++ enhanceVf ++ " -c:v libx264 -preset veryfast -crf 20 -c:a copy \""

theorem buildSplit_shape (u o : String) :
    buildSplitCommand u o = "-i \"" ++ u ++ splitMid ++ o ++ "\"" := rfl

theorem buildCrop_shape (u o : String) :
    buildCropSquareCommand u o = "-i \"" ++ u ++ cropMid ++ o ++ "\"" := by
  unfold buildCropSquareCommand cropMid
  simp [strAppend_assoc]

theorem buildBlur_shape (u o : String) :
    buildBlurCommand u o = "-i \"" ++ u ++ blurMid ++ o ++ "\"" := by
  unfold buildBlurCommand blurMid
  simp [strAppend_assoc]

theorem buildEnhance_shape (u o : String) :
    buildEnhanceCommand u o = "-i \"" ++ u ++ enhanceMid ++ o ++ "\"" := by
  unfold buildEnhanceCommand enhanceMid
  simp [strAppend_assoc]

/-! ### Claim theorems -/

/-- C2: for input `file:///a.mp4` and output `/out/crop_T.mp4`,
`buildCropSquareCommand` returns a string containing `-i "file:///a.mp4"`,
containing `crop='min(iw,ih)':'min(iw,ih)',scale=1080:1080`, and ending with the
quoted output path as its final whitespace-separated token. -/
theorem crop_scenario_string :
    containsStr (buildCropSquareCommand "file:///a.mp4" "/out/crop_T.mp4")
        ("-i \"file:///a.mp4\"") = true
    ∧ containsStr (buildCropSquareCommand "file:///a.mp4" "/out/crop_T.mp4")
        ("crop=" ++ sq ++ "min(iw,ih)" ++ sq ++ ":" ++ sq ++ "min(iw,ih)" ++ sq ++
          ",scale=1080:1080") = true
    ∧ endsWithStr (buildCropSquareCommand "file:///a.mp4" "/out/crop_T.mp4")
        "\"/out/crop_T.mp4\"" = true
    ∧ lastToken (buildCropSquareCommand "file:///a.mp4" "/out/crop_T.mp4")
        = "\"/out/crop_T.mp4\"" := by
  decide

/-- C3: every builder's result contains the exact input reference and the exact
output path/pattern verbatim, and contains exactly four double quotes beyond
those already occurring in the input and output — the two surrounding pairs the
builder itself applies. -/
theorem builders_exact_io_and_quotes (u o : String) :
    (containsStr (buildSplitCommand u o) u = true
      ∧ containsStr (buildSplitCommand u o) o = true
      ∧ countQuotes (buildSplitCommand u o) = countQuotes u + countQuotes o + 4)
    ∧ (containsStr (buildCropSquareCommand u o) u = true
      ∧ containsStr (buildCropSquareCommand u o) o = true
      ∧ countQuotes (buildCropSquareCommand u o)
          = countQuotes u + countQuotes o + 4)
    ∧ (containsStr (buildBlurCommand u o) u = true
      ∧ containsStr (buildBlurCommand u o) o = true
      ∧ countQuotes (buildBlurCommand u o) = countQuotes u + countQuotes o + 4)
    ∧ (containsStr (buildEnhanceCommand u o) u = true
      ∧ containsStr (buildEnhanceCommand u o) o = true
      ∧ countQuotes (buildEnhanceCommand u o)
          = countQuotes u + countQuotes o + 4) := by
  rw [buildSplit_shape, buildCrop_shape, buildBlur_shape, buildEnhance_shape]
  exact
    ⟨⟨containsStr_shape_input _ _ _ _ _, containsStr_shape_output _ _ _ _ _,
        countQuotes_shape _ _ _ _ _ (by decide) (by decide) (by decide)⟩,
      ⟨containsStr_shape_input _ _ _ _ _, containsStr_shape_output _ _ _ _ _,
        countQuotes_shape _ _ _ _ _ (by decide) (by decide) (by decide)⟩,
      ⟨containsStr_shape_input _ _ _ _ _, containsStr_shape_output _ _ _ _ _,
        countQuotes_shape _ _ _ _ _ (by decide) (by decide) (by decide)⟩,
      ⟨containsStr_shape_input _ _ _ _ _, containsStr_shape_output _ _ _ _ _,
        countQuotes_shape _ _ _ _ _ (by decide) (by decide) (by decide)⟩⟩

/-- C4: every `buildSplitCommand` result contains `-segment_time 60`, and the
output pattern used by the Split action contains the fixed-width zero-padded
sequence placeholder `%03d`. -/
theorem split_duration_and_placeholder (u o docDir stamp : String) :
    containsStr (buildSplitCommand u o) "-segment_time 60" = true
    ∧ containsStr (splitPattern docDir stamp) "%03d" = true := by
  constructor
  · rw [buildSplit_shape]
    exact containsStr_shape_mid _ _ _ _ _ _ (by decide)
  · unfold splitPattern
    exact containsStr_append_right _ _ _ (by decide)

/-- C9 counterexample: the four builders do NOT agree on the quality value — at
input `file:///a.mp4` and output `/out/x.mp4`, the Split command carries
`-crf 23` while the CropSquare command carries `-crf 20`. -/
theorem crf_values_disagree :
    crfOf (buildSplitCommand "file:///a.mp4" "/out/x.mp4")
      ≠ crfOf (buildCropSquareCommand "file:///a.mp4" "/out/x.mp4") := by
  decide

/-- C9 (amended): all four builders emit the same fixed encoding preset
(`-preset veryfast`), and each emits a fixed quality parameter, but the quality
values differ across presets: 23 for Split, 20 for CropSquare, 22 for Blur and
20 for Enhance. -/
theorem fixed_encoding_params (u o : String) :
    (containsStr (buildSplitCommand u o) " -preset veryfast " = true
      ∧ containsStr (buildCropSquareCommand u o) " -preset veryfast " = true
      ∧ containsStr (buildBlurCommand u o) " -preset veryfast " = true
      ∧ containsStr (buildEnhanceCommand u o) " -preset veryfast " = true)
    ∧ (containsStr (buildSplitCommand u o) " -preset veryfast -crf 23 " = true
      ∧ containsStr (buildCropSquareCommand u o) " -preset veryfast -crf 20 " = true
      ∧ containsStr (buildBlurCommand u o) " -preset veryfast -crf 22 " = true
      ∧ containsStr (buildEnhanceCommand u o) " -preset veryfast -crf 20 " = true) := by
  rw [buildSplit_shape, buildCrop_shape, buildBlur_shape, buildEnhance_shape]
  exact
    ⟨⟨containsStr_shape_mid _ _ _ _ _ _ (by decide),
        containsStr_shape_mid _ _ _ _ _ _ (by decide),
        containsStr_shape_mid _ _ _ _ _ _ (by decide),
        containsStr_shape_mid _ _ _ _ _ _ (by decide)⟩,
      ⟨containsStr_shape_mid _ _ _ _ _ _ (by decide),
        containsStr_shape_mid _ _ _ _ _ _ (by decide),
        containsStr_shape_mid _ _ _ _ _ _ (by decide),
        containsStr_shape_mid _ _ _ _ _ _ (by decide)⟩⟩

/-- C10: for every Split run, the command string embeds the `%03d` pattern
verbatim, while the stored Output Record replaces the first `%03d` by `001..`,
so the recorded path always differs from the pattern in the command. -/
theorem split_record_not_pattern (docDir stamp u : String) :
    containsStr (buildSplitCommand u (splitPattern docDir stamp))
        (splitPattern docDir stamp) = true
    ∧ presetRecord Preset.split docDir stamp
        = replaceFirst (splitPattern docDir stamp) "%03d" "001.."
    ∧ presetRecord Preset.split docDir stamp ≠ splitPattern docDir stamp := by
  refine ⟨?_, rfl, ?_⟩
  · rw [buildSplit_shape]
    exact containsStr_shape_output _ _ _ _ _
  · show replaceFirst (splitPattern docDir stamp) "%03d" "001.."
        ≠ splitPattern docDir stamp
    apply replaceFirst_ne
    · unfold splitPattern
      exact containsStr_append_right _ _ _ (by decide)
    · decide

/-- C1: pressing a run button while the busy label is non-null leaves the state
unchanged and produces no events — in particular `runFFmpeg` is not invoked —
and any button press produces at most one adapter invocation. -/
theorem busy_run_rejected :
    (∀ (p : Preset) (docDir stamp : String) (s : AppState) (l : String)
        (adapter : String → Bool × String),
        s.busy = some l → pressRun p docDir stamp s adapter = (s, []))
    ∧ (∀ (p : Preset) (docDir stamp : String) (s : AppState)
        (adapter : String → Bool × String),
        countAdapterCalls (pressRun p docDir stamp s adapter).2 ≤ 1) := by
  constructor
  · intro p docDir stamp s l adapter hb
    simp [pressRun, runDisabled, hb]
  · intro p docDir stamp s adapter
    unfold pressRun
    split
    · simp [countAdapterCalls]
    · unfold runPreset withRun
      rcases hs : s.inputUri with _ | u
      · simp [hs, countAdapterCalls]
      · simp only [hs]
        split <;> simp [countAdapterCalls]

/-- C1 witness: a press while `busy = some "Blur"` is a no-op with empty trace. -/
theorem busy_run_rejected_witness :
    pressRun Preset.crop "/data" "2025-01-01T00-00-00-000Z"
        ⟨some "file:///a.mp4", some "Blur", ["r"]⟩ okAdapter
      = (⟨some "file:///a.mp4", some "Blur", ["r"]⟩, []) :=
  busy_run_rejected.1 Preset.crop "/data" "2025-01-01T00-00-00-000Z"
    ⟨some "file:///a.mp4", some "Blur", ["r"]⟩ "Blur" okAdapter rfl

/-- C7: a run request delivered to `withRun` with no input reference selected
alerts "No video", leaves the state unchanged, and invokes neither the Path
Manager, nor the Command Builder, nor the Execution Adapter. -/
theorem no_input_rejected (s : AppState) (label : String)
    (buildCmd : AppState → Except (String × AppState) (String × AppState))
    (adapter : String → Bool × String) (h : s.inputUri = none) :
    withRun s label buildCmd adapter
        = (s, [Event.alert "No video" "Please pick a video first."])
    ∧ countEnsureCalls (withRun s label buildCmd adapter).2 = 0
    ∧ countBuildCalls (withRun s label buildCmd adapter).2 = 0
    ∧ countAdapterCalls (withRun s label buildCmd adapter).2 = 0 := by
  have h1 : withRun s label buildCmd adapter
      = (s, [Event.alert "No video" "Please pick a video first."]) := by
    simp [withRun, h]
  refine ⟨h1, ?_, ?_, ?_⟩ <;> rw [h1] <;>
    simp [countEnsureCalls, countBuildCalls, countAdapterCalls]

/-- C7 witness: the no-input rejection at a concrete state. -/
theorem no_input_rejected_witness :
    withRun ⟨none, none, []⟩ "Blur" (constBuild "cmd") okAdapter
      = (⟨none, none, []⟩, [Event.alert "No video" "Please pick a video first."]) :=
  (no_input_rejected ⟨none, none, []⟩ "Blur" (constBuild "cmd") okAdapter rfl).1

/-- C5: when the adapter resolves with `success = false`, the run exits the
Running state (`busy` returns to `none`), the already-appended output record
stays at the head of the output list, the failure alert shows exactly the
first 2000 characters of the log (a leading segment of the log of length at
most 2000); and when the build sequence throws, the run also exits Running. -/
theorem failed_run_exits_running :
    (∀ (p : Preset) (docDir stamp : String) (s : AppState) (u logs : String),
        s.inputUri = some u →
        (runPreset p docDir stamp s (failAdapter logs)).1.busy = none
        ∧ (runPreset p docDir stamp s (failAdapter logs)).1.outputs
            = presetRecord p docDir stamp :: s.outputs
        ∧ (runPreset p docDir stamp s (failAdapter logs)).2
            = [Event.ensureDirCall, Event.buildCall,
               Event.adapterCall (presetCmd p u (presetOutPath p docDir stamp)),
               Event.alert (presetLabel p ++ " failed") (jsSlice logs 2000)]
        ∧ (jsSlice logs 2000).data.length ≤ 2000
        ∧ leadMatch (jsSlice logs 2000).data logs.data = true)
    ∧ (∀ (s : AppState) (label : String) (g : AppState → String × AppState)
        (adapter : String → Bool × String), s.inputUri.isSome = true →
        (withRun s label (throwingBuild g) adapter).1.busy = none) := by
  constructor
  · intro p docDir stamp s u logs hs
    refine ⟨?_, ?_, ?_, ?_, ?_⟩
    · simp [runPreset, withRun, hs, presetBuild, failAdapter]
    · simp [runPreset, withRun, hs, presetBuild, failAdapter]
    · simp [runPreset, withRun, hs, presetBuild, failAdapter]
    · simp only [jsSlice, List.length_take]
      omega
    · exact leadMatch_take logs.data 2000
  · intro s label g adapter hs
    rcases ho : s.inputUri with _ | u
    · rw [ho] at hs
      simp at hs
    · simp [withRun, ho, throwingBuild]

/-- C5 witness: a concrete failing run and a concrete throwing run both end
with `busy = none`. -/
theorem failed_run_exits_running_witness :
    (runPreset Preset.blur "/data" "T" ⟨some "file:///v.mp4", none, ["old"]⟩
        (failAdapter "LOG")).1.busy = none
    ∧ (withRun ⟨some "u", none, []⟩ "Blur" (throwingBuild throwBoom)
        okAdapter).1.busy = none :=
  ⟨(failed_run_exits_running.1 Preset.blur "/data" "T"
      ⟨some "file:///v.mp4", none, ["old"]⟩ "file:///v.mp4" "LOG" rfl).1,
    failed_run_exits_running.2 ⟨some "u", none, []⟩ "Blur" throwBoom okAdapter rfl⟩

/-- C6: for every run with an input selected, the Output Record is prepended to
the output list by the handler closure — before the adapter resolves — and the
final output list is the record consed onto the previous list whatever the
adapter answers, so the record is present even for failing runs and existing
records are preserved unchanged; picking a video never touches the list. -/
theorem record_appended_on_request :
    ∀ (p : Preset) (docDir stamp : String) (s : AppState) (u : String)
      (adapter : String → Bool × String), s.inputUri = some u →
      (presetBuild p docDir stamp u
          { s with busy := some (presetLabel p) }).2.outputs
          = presetRecord p docDir stamp :: s.outputs
      ∧ (runPreset p docDir stamp s adapter).1.outputs
          = presetRecord p docDir stamp :: s.outputs
      ∧ (∀ (s2 : AppState) (uri : String), (onPick s2 uri).outputs = s2.outputs) := by
  intro p docDir stamp s u adapter hs
  refine ⟨by simp [presetBuild], ?_, fun s2 uri => rfl⟩
  unfold runPreset withRun
  simp only [hs]
  simp only [presetBuild]
  split <;> simp

/-- C6 witness: a failing concrete run still has the record at the head. -/
theorem record_appended_on_request_witness :
    (runPreset Preset.split "/data" "T" ⟨some "u", none, ["old"]⟩
        (failAdapter "L")).1.outputs
      = presetRecord Preset.split "/data" "T" :: ["old"] :=
  (record_appended_on_request Preset.split "/data" "T" ⟨some "u", none, ["old"]⟩
      "u" (failAdapter "L") rfl).2.1

/-- C8: on a duplicate-free file system, a first call to `ensureOutDir` leaves
exactly one output directory, and a second call is a no-op: it returns the same
file-system state and performs no `mkdir`. -/
theorem ensureOutDir_idempotent (fs : FS) (docDir : String)
    (h : fs.dirs.Nodup) :
    (ensureOutDir (ensureOutDir fs docDir).1 docDir).1 = (ensureOutDir fs docDir).1
    ∧ (ensureOutDir (ensureOutDir fs docDir).1 docDir).2.2 = false
    ∧ (ensureOutDir fs docDir).1.dirs.count (outDir docDir) = 1
    ∧ (ensureOutDir fs docDir).1.dirs.Nodup := by
  by_cases hmem : outDir docDir ∈ fs.dirs
  · have h1 : ensureOutDir fs docDir = (fs, outDir docDir, false) := by
      simp [ensureOutDir, fsExists, hmem]
    rw [h1]
    refine ⟨by simp [ensureOutDir, fsExists, hmem], by simp [ensureOutDir, fsExists, hmem],
      ?_, h⟩
    exact List.count_eq_one_of_mem h hmem
  · have h1 : ensureOutDir fs docDir
        = (⟨outDir docDir :: fs.dirs⟩, outDir docDir, true) := by
      simp [ensureOutDir, fsExists, fsMkdir, hmem]
    rw [h1]
    have hmem2 : outDir docDir ∈ outDir docDir :: fs.dirs := List.mem_cons_self _ _
    refine ⟨by simp [ensureOutDir, fsExists], by simp [ensureOutDir, fsExists], ?_, ?_⟩
    · simp [List.count_cons_self, List.count_eq_zero.mpr hmem]
    · exact List.nodup_cons.mpr ⟨hmem, h⟩

/-- C8 witness: two calls on the empty file system. -/
theorem ensureOutDir_idempotent_witness :
    (ensureOutDir (ensureOutDir ⟨[]⟩ "/data").1 "/data").1
        = (ensureOutDir ⟨[]⟩ "/data").1
    ∧ (ensureOutDir (ensureOutDir ⟨[]⟩ "/data").1 "/data").2.2 = false
    ∧ (ensureOutDir ⟨[]⟩ "/data").1.dirs.count (outDir "/data") = 1
    ∧ (ensureOutDir ⟨[]⟩ "/data").1.dirs.Nodup :=
  ensureOutDir_idempotent ⟨[]⟩ "/data" (by decide)

end VideoApp
